import Mathlib

/-!
Verification of the IBKR → Ghostfolio converter
(`src/converters/ibkrConverter.ts`).

The converter is shallowly embedded: strings stay `String` (helpers work on
`List Char` so that everything reduces structurally), JavaScript numbers are
modelled as `ℚ` (all amounts in the converter are passed through
`Math.abs(parseFloat ..)` before use, and the claims under study do not hinge
on binary floating-point artefacts), and the callback-style control flow
(`successCallback` / `errorCallback`) is modelled as `Except String`:
`.ok` is the single success callback, `.error` the single error callback.
-/

namespace Ibkr

/-- Substring containment on `List Char`, mirroring JavaScript
`String.prototype.indexOf(pat) > -1` (true for the empty pattern). -/
def listContainsSub (pat : List Char) : List Char → Bool
  | [] => pat.isEmpty
  | c :: cs => List.isPrefixOf pat (c :: cs) || listContainsSub pat cs

/-- JavaScript `s.indexOf(pat) > -1`. -/
def strContains (s pat : String) : Bool :=
  listContainsSub pat.toList s.toList

/-- JavaScript `s.split(sep)` for a one-character separator: never empty,
`"".split(sep) = [""]`, keeps empty fields. -/
def splitOnCharAux (sep : Char) : List Char → List Char → List (List Char)
  | [], acc => [acc.reverse]
  | c :: cs, acc =>
    if c = sep then acc.reverse :: splitOnCharAux sep cs []
    else splitOnCharAux sep cs (c :: acc)

/-- JavaScript `s.split(sep)` (single-character separator). -/
def splitOnChar (sep : Char) (cs : List Char) : List (List Char) :=
  splitOnCharAux sep cs []

/-- JavaScript `s.split(sep)` returning strings. -/
def strSplit (s : String) (sep : Char) : List String :=
  (splitOnChar sep s.toList).map List.asString

/-- JavaScript `s.trim()` (whitespace at both ends removed). -/
def strTrim (s : String) : String :=
  (((s.toList.dropWhile Char.isWhitespace).reverse.dropWhile
      Char.isWhitespace).reverse).asString

/-- JavaScript `s.startsWith(p)`. -/
def strStartsWith (s p : String) : Bool :=
  List.isPrefixOf p.toList s.toList

/-- JavaScript `s.substring(0, n)`. -/
def strTake (s : String) (n : Nat) : String :=
  (s.toList.take n).asString

/-- JavaScript `s.toLocaleLowerCase()` (ASCII case folding suffices for the
fixed search words `"buy"`, `"sell"`, `"dividend"`, `"tax"`, `"in lieu of"`). -/
def strLower (s : String) : String :=
  (s.toList.map Char.toLower).asString

/-- JavaScript `parseFloat(x.toFixed(3))` for the non-negative quantities the
converter produces: round half-up to 3 decimal places. -/
def toFixed3 (q : ℚ) : ℚ :=
  (⌊q * 1000 + 1 / 2⌋ : ℚ) / 1000

/-! ## The ISIN override table (`loadIsinOverrides`, lines 302–345)

The converter holds two pieces of state loaded from `isin-overrides.txt`:
`isinOverrides : Map<string, string>` and `manualIsins : Set<string>`.
The map is modelled as an association list in which `set` shadows any earlier
binding, the set as a duplicate-free list. -/

structure OverrideState where
  isinOverrides : List (String × String)
  manualIsins : List String
deriving DecidableEq

def emptyOverrides : OverrideState := ⟨[], []⟩

/-- Model of `Map.prototype.set`: bind `k` to `v`, replacing any earlier binding. -/
def mapSet (m : List (String × String)) (k v : String) : List (String × String) :=
  (k, v) :: m.filter (fun p => p.1 ≠ k)

/-- Model of `Map.prototype.get` (as an `Option`). -/
def mapGet (m : List (String × String)) (k : String) : Option String :=
  (m.find? (fun p => p.1 = k)).map (·.2)

/-- Model of `Set.prototype.add`. -/
def setAdd (s : List String) (x : String) : List String :=
  if x ∈ s then s else x :: s

/-- One iteration of the `for (const line of lines)` loop of
`loadIsinOverrides` (lines 314–340): trim, skip blank and `#` lines, split on
`=`, require exactly two non-empty trimmed parts; `isin === symbol` marks the
ISIN manual, otherwise records the replacement symbol. -/
def loadOverrideLine (st : OverrideState) (line : String) : OverrideState :=
  let trimmed := strTrim line
  if trimmed = "" then st
  else if strStartsWith trimmed "#" then st
  else
    match strSplit trimmed '=' with
    | [p0, p1] =>
      let isin := strTrim p0
      let symbol := strTrim p1
      if isin = "" then st
      else if symbol = "" then st
      else if isin = symbol then { st with manualIsins := setAdd st.manualIsins isin }
      else { st with isinOverrides := mapSet st.isinOverrides isin symbol }
    | _ => st

/-- Function `loadIsinOverrides` (lines 302–345): split the file on newlines and fold
the per-line step over an initially empty table. -/
def loadIsinOverrides (content : String) : OverrideState :=
  (strSplit content '\n').foldl loadOverrideLine emptyOverrides

/-- Predicate `isManualIsin` (lines 350–352). -/
def isManualIsin (st : OverrideState) (isin : String) : Bool :=
  isin ∈ st.manualIsins

/-- Function `getSymbolOverride` (lines 357–362). -/
def getSymbolOverride (st : OverrideState) (isin : String) : Option String :=
  mapGet st.isinOverrides isin

/-! ## Records and the resolved-security model -/

/-- Structure `YahooFinanceRecord` — the fields the converter reads. -/
structure YahooFinanceRecord where
  symbol : String
  currency : String
  name : String
deriving DecidableEq

/-- Structure `IbkrDividendRecord` (6-column dividend layout, post-`cast`): `amount`
already went through `Math.abs(parseFloat ..)`. -/
structure IbkrDividendRecord where
  type : String
  date : String
  isin : String
  description : String
  amount : ℚ
  currency : String
deriving DecidableEq

/-- Structure `IbkrTradeRecord` (9-column trade layout, post-`cast`). -/
structure IbkrTradeRecord where
  type : String
  date : String
  isin : String
  quantity : ℚ
  price : ℚ
  totalAmount : ℚ
  tradeCurrency : String
  commission : ℚ
  commissionCurrency : String
deriving DecidableEq

/-- A parsed row; the TypeScript code holds both shapes behind the untyped
`IbkrRecord` and discriminates by the truthiness of the `currency` field. -/
inductive IbkrRecord where
  | dividend (r : IbkrDividendRecord)
  | trade (r : IbkrTradeRecord)
deriving DecidableEq

def IbkrRecord.isin : IbkrRecord → String
  | .dividend r => r.isin
  | .trade r => r.isin

/-- Field read `(record as IbkrDividendRecord).currency`; a JavaScript read of a missing
field yields `undefined`, modelled as `""` (both are falsy). -/
def recCurrencyField : IbkrRecord → String
  | .dividend r => r.currency
  | .trade _ => ""

/-- Field read `(record as IbkrTradeRecord).tradeCurrency`, `""` when missing. -/
def recTradeCurrency : IbkrRecord → String
  | .dividend _ => ""
  | .trade r => r.tradeCurrency

/-- Predicate `isIgnoredRecord` (lines 285–288): `!record.isin`. -/
def isIgnoredRecord (rec : IbkrRecord) : Bool :=
  rec.isin = ""

/-- Line 110: `currency === "GBX" ? currency = "GBp" : currency`. -/
def canonCurrency (c : String) : String :=
  if c = "GBX" then "GBp" else c

/-- Lines 104–109: the row currency — the `currency` field when truthy,
otherwise the `tradeCurrency` field. -/
def recordRawCurrency (rec : IbkrRecord) : String :=
  if recCurrencyField rec = "" then recTradeCurrency rec else recCurrencyField rec

/-- The `cast` hook for the `type` column (lines 38–53): lowercase, then
substring classification in fixed priority order; unmatched values pass
through unchanged. -/
def castTypeColumn (s : String) : String :=
  let action := strLower s
  if strContains action "buy" then "buy"
  else if strContains action "sell" then "sell"
  else if strContains action "dividend" then "dividend"
  else if strContains action "tax" then "dividendTax"
  else s

/-! ## Identity resolution (lines 112–150)

The decision which security to use — fabricate a manual one, call
`securityService.getSecurity` with the override symbol, or call it with the
ISIN — is captured as a `ResolveAction`; `runResolve` then executes the
external call (a parameter `Lookup`, since `SecurityService` is an external
collaborator).  A `.manual` action never consults the `Lookup`. -/

inductive ResolveAction where
  | manual (security : YahooFinanceRecord)
  | extLookup (isin : Option String) (symbolOverride : Option String) (currency : String)
deriving DecidableEq

/-- The external collaborator `securityService.getSecurity`: may fail
(`.error`), may find nothing (`.ok none`). -/
def Lookup : Type :=
  Option String → Option String → String → Except String (Option YahooFinanceRecord)

/-- Lines 115–145, the pure decision: manual ISINs get the mock record
`{symbol: GF_<isin>, currency: currency || 'USD', name: isin}`; otherwise an
override symbol (if any) is passed in place of the ISIN. -/
def resolveQuery (ovr : OverrideState) (isin currency : String) : ResolveAction :=
  if isManualIsin ovr isin then
    .manual { symbol := "GF_" ++ isin
              currency := if currency = "" then "USD" else currency
              name := isin }
  else
    match getSymbolOverride ovr isin with
    | some symbolOverride => .extLookup none (some symbolOverride) currency
    | none => .extLookup (some isin) none currency

/-- Executing a `ResolveAction`: the `dataSource` is `"MANUAL"` for
fabricated records and the default `"YAHOO"` otherwise (lines 113, 124). -/
def runResolve (lookup : Lookup) : ResolveAction → Except String (Option (YahooFinanceRecord × String))
  | .manual security => .ok (some (security, "MANUAL"))
  | .extLookup isin symbolOverride currency =>
    match lookup isin symbolOverride currency with
    | .error e => .error e
    | .ok none => .ok none
    | .ok (some security) => .ok (some (security, "YAHOO"))

/-- The whole `try` block of lines 115–145. -/
def resolveSecurity (ovr : OverrideState) (lookup : Lookup) (isin currency : String) :
    Except String (Option (YahooFinanceRecord × String)) :=
  runResolve lookup (resolveQuery ovr isin currency)

/-! ## Per-share price extraction (line 178)

`parseFloat(description.match(/(\d+(\.\d+)?)(?= PER SHARE)/)[0])`.
The JavaScript regex engine tries each start position left to right; at a
position it matches a greedy digit run, then an optional `.`‑fraction, and
requires the lookahead `" PER SHARE"`.  Shrinking a greedy digit run can
never rescue a failed lookahead (the next character would be a digit, never
a space), so the only backtracking that matters is dropping the optional
fraction — which `matchNumberAt` mirrors.  When the regex finds no match,
`match` returns `null` and `[0]` throws a `TypeError`; the extraction result
is therefore an `Option ℚ` with `none` for the crash. -/

def perShareMark : List Char := " PER SHARE".toList

/-- Value of a digit string. -/
def digitsToNat (cs : List Char) : Nat :=
  cs.foldl (fun n c => 10 * n + (c.toNat - '0'.toNat)) 0

/-- Value `parseFloat` gives `intPart.fracPart` (both plain digit strings). -/
def decimalToRat (intPart fracPart : List Char) : ℚ :=
  (digitsToNat intPart : ℚ) + (digitsToNat fracPart : ℚ) / (10 : ℚ) ^ fracPart.length

/-- Try the regex at one start position (see the section comment); the match
is returned as the pair (integer digits, fraction digits). -/
def matchNumberAt (cs : List Char) : Option (List Char × List Char) :=
  match cs.span Char.isDigit with
  | ([], _) => none
  | (ds, rest) =>
    let noFrac : Option (List Char × List Char) :=
      if List.isPrefixOf perShareMark rest then some (ds, []) else none
    match rest with
    | '.' :: rest2 =>
      match rest2.span Char.isDigit with
      | ([], _) => noFrac
      | (fs, rest3) =>
        if List.isPrefixOf perShareMark rest3 then some (ds, fs) else noFrac
    | _ => noFrac

/-- Leftmost match: scan start positions left to right. -/
def extractGo : List Char → Option (List Char × List Char)
  | [] => none
  | c :: cs =>
    match matchNumberAt (c :: cs) with
    | some m => some m
    | none => extractGo cs

/-- The digits matched by the regex of line 178, if any. -/
def extractMatch (s : String) : Option (List Char × List Char) :=
  extractGo s.toList

/-- The full extraction of line 178 (`parseFloat` applied to the match). -/
def extractPerSharePrice (s : String) : Option ℚ :=
  (extractMatch s).map (fun m => decimalToRat m.1 m.2)

/-! ## Activities and the dividend/tax matcher -/

/-- Structure `GhostfolioActivity` (field order as in `models/ghostfolioActivity.ts`);
`type` holds the `GhostfolioOrderType` value as a string. -/
structure GhostfolioActivity where
  accountId : String
  comment : String
  fee : ℚ
  quantity : ℚ
  type : String
  unitPrice : ℚ
  currency : String
  dataSource : String
  date : String
  symbol : String
deriving DecidableEq

/-- Model of `dayjs(date).format("YYYY-MM-DDTHH:mm:ssZ")` for the 8-digit `YYYYMMDD`
date strings of this export, at local midnight; the offset is fixed because
only equality of formatted dates matters to the converter (activity date,
line 231, and match predicate, line 296, use the same formatting). -/
def formatDate (d : String) : String :=
  strTake d 4 ++ "-" ++ ((d.toList.drop 4).take 2).asString ++ "-" ++
    ((d.toList.drop 6).take 2).asString ++ "T00:00:00+00:00"

/-- The predicate of `findExactDividendMatch` (lines 290–297): same symbol,
activity currency equal to the record's *raw* `currency` field, equal first
20 characters of comment/description, same formatted date. -/
def dividendMatches (d : IbkrDividendRecord) (symbol : String)
    (a : GhostfolioActivity) : Bool :=
  a.symbol = symbol && a.currency = d.currency &&
    strTake a.comment 20 = strTake d.description 20 &&
    a.date = formatDate d.date

/-- Function `findExactDividendMatch` (lines 290–297): `Array.prototype.find`. -/
def findExactDividendMatch (d : IbkrDividendRecord) (symbol : String)
    (activities : List GhostfolioActivity) : Option GhostfolioActivity :=
  activities.find? (dividendMatches d symbol)

/-- In-place mutation of the activity returned by `find`: replace the first
element satisfying `p` by its image under `f`; `none` when no element
matches. -/
def updateFirstWhere (p : α → Bool) (f : α → α) : List α → Option (List α)
  | [] => none
  | a :: as =>
    if p a then some (f a :: as)
    else (updateFirstWhere p f as).map (a :: ·)

/-- Lines 192–206: a matched tax-stub activity (comment containing `"TAX"`)
gets the new comment, unit price and quantity; otherwise only the fee of the
existing activity is overwritten. -/
def mergeDividend (comment : String) (price quantity fees : ℚ)
    (a : GhostfolioActivity) : GhostfolioActivity :=
  if strContains a.comment "TAX" then
    { a with comment := comment, unitPrice := price, quantity := quantity }
  else
    { a with fee := fees }

/-! ## The per-record body of the processing loop (lines 94–236) -/

/-- Line 181: `fees = Math.abs(dividendRecord.amount)` for a tax record,
otherwise the initial `0` of line 161. -/
def dividendFees (d : IbkrDividendRecord) : ℚ :=
  if d.type = "dividendTax" then |d.amount| else 0

/-- Line 183: `quantity = parseFloat((amount / price).toFixed(3))` for an
ordinary dividend, otherwise the initial `0` of line 161. -/
def dividendQuantity (d : IbkrDividendRecord) (price : ℚ) : ℚ :=
  if d.type = "dividendTax" then 0 else toFixed3 (d.amount / price)

/-- One iteration of `for (let idx ..)` in `processFileContents`: skip
ignored records, canonicalize the currency, resolve the security (aborting
on a collaborator error, skipping on an empty result), then classify.  A
dividend-shaped record (truthy `currency` field) is parsed from its
description: payment-in-lieu rows bypass the matcher entirely; other
dividend-family rows extract the mandatory `PER SHARE` price (`none` crashes
— the `TypeError` of line 178, caught by the surrounding `try` and reported
through the error callback) and then either complete a matching activity or
append a new one.  Trade-shaped records map commission/quantity/price
verbatim.  A dividend-shaped record with an *empty* `currency` string falls
into the trade branch in the TypeScript (` (record as IbkrDividendRecord).currency`
is falsy) and reads fields that do not exist — JavaScript `undefined`/`NaN`,
modelled as `""`/`0`; no claim exercises this corner. -/
def processRecord (ovr : OverrideState) (lookup : Lookup) (accountId : String)
    (activities : List GhostfolioActivity) (rec : IbkrRecord) :
    Except String (List GhostfolioActivity) :=
  if isIgnoredRecord rec then .ok activities
  else
    let currency := canonCurrency (recordRawCurrency rec)
    match resolveSecurity ovr lookup rec.isin currency with
    | .error e => .error e
    | .ok none => .ok activities
    | .ok (some (security, dataSource)) =>
      let date := formatDate (match rec with | .dividend d => d.date | .trade t => t.date)
      match rec with
      | .dividend d =>
        if d.currency = "" then
          .ok (activities ++ [⟨accountId, "", 0, 0, d.type, 0, currency,
            dataSource, date, security.symbol⟩])
        else if strContains (strLower d.description) "in lieu of" then
          .ok (activities ++ [⟨accountId, d.description, 0, d.amount, "dividend", 0,
            currency, dataSource, date, security.symbol⟩])
        else
          match extractPerSharePrice d.description with
          | none => .error "TypeError: Cannot read properties of null (reading 0)"
          | some price =>
            match updateFirstWhere (dividendMatches d security.symbol)
                (mergeDividend d.description price (dividendQuantity d price)
                  (dividendFees d)) activities with
            | some updated => .ok updated
            | none =>
              .ok (activities ++ [⟨accountId, d.description, dividendFees d,
                dividendQuantity d price, "dividend", price, currency, dataSource,
                date, security.symbol⟩])
      | .trade t =>
        .ok (activities ++ [⟨accountId, "", t.commission, t.quantity, t.type,
          t.price, currency, dataSource, date, security.symbol⟩])

/-- The loop itself: records in file order, threading the growing activity
list; the `return errorCallback(..)` inside the loop (line 149) and the
thrown `TypeError` both short-circuit. -/
def processRecords (ovr : OverrideState) (lookup : Lookup) (accountId : String) :
    List IbkrRecord → List GhostfolioActivity → Except String (List GhostfolioActivity)
  | [], acc => .ok acc
  | rec :: rest, acc =>
    match processRecord ovr lookup accountId acc rec with
    | .error e => .error e
    | .ok acc' => processRecords ovr lookup accountId rest acc'

/-- The export envelope (`GhostfolioExport`); `meta.date` is a wall-clock
timestamp outside the model, `meta.version` is the constant `"v0"`. -/
structure GhostfolioExport where
  version : String
  activities : List GhostfolioActivity
deriving DecidableEq

/-- Function `processFileContents` (lines 26–248) after the CSV library hands over
`(err, records)` — the argument `parsed` is `.error msg` when the parser
failed and `.ok records` otherwise: a parse error or an empty record list is
fatal (lines 72–80); otherwise the loop runs and exactly one of
`successCallback` (`.ok`) / `errorCallback` (`.error`) is invoked. -/
def processFileContents (ovr : OverrideState) (lookup : Lookup) (accountId : String)
    (parsed : Except String (List IbkrRecord)) : Except String GhostfolioExport :=
  match parsed with
  | .error msg => .error ("An error occurred while parsing! Details: " ++ msg)
  | .ok records =>
    if records.length = 0 then .error "An error occurred while parsing!"
    else
      match processRecords ovr lookup accountId records [] with
      | .error e => .error e
      | .ok acts => .ok { version := "v0", activities := acts }

/-- Function `processHeaders` (lines 253–280): count the fields of the first line;
more than 6 selects the 9-column trade layout, otherwise the 6-column
dividend layout. -/
def processHeaders (input : String) (splitChar : Char := ',') : List String :=
  let firstLine := (strSplit input '\n').headD ""
  let colsInFile := strSplit firstLine splitChar
  if colsInFile.length > 6 then
    ["type", "date", "isin", "quantity", "price", "totalAmount",
     "tradeCurrency", "commission", "commissionCurrency"]
  else
    ["type", "date", "isin", "description", "amount", "currency"]

/-! ## Concrete fixtures for witnesses and counterexamples -/

/-- A collaborator that always resolves to one fixed security. -/
def appleLookup : Lookup :=
  fun _ _ _ => .ok (some ⟨"AAPL", "USD", "Apple"⟩)

/-- A collaborator that always raises. -/
def failingLookup : Lookup :=
  fun _ _ _ => .error "getSecurity failed"

/-! ## Step lemmas -/

/-- Model fact: `Array.prototype.find` returning `undefined` means the in-place update
path is not taken. -/
theorem updateFirstWhere_of_find?_eq_none (p : α → Bool) (f : α → α)
    (l : List α) (h : l.find? p = none) : updateFirstWhere p f l = none := by
  induction l with
  | nil => rfl
  | cons a as ih =>
    cases hpa : p a with
    | true => simp [List.find?_cons_of_pos _ hpa] at h
    | false =>
      rw [List.find?_cons_of_neg _ (by simp [hpa])] at h
      simp [updateFirstWhere, hpa, ih h]

/-- A non-PIL dividend-family record that resolves, parses, and matches no
existing activity appends exactly one new activity. -/
theorem processRecord_dividend_append (ovr : OverrideState) (lookup : Lookup)
    (accountId : String) (acts : List GhostfolioActivity) (d : IbkrDividendRecord)
    (sec : YahooFinanceRecord) (ds : String) (p : ℚ)
    (hisin : d.isin ≠ "") (hcur : d.currency ≠ "")
    (hres : resolveSecurity ovr lookup d.isin (canonCurrency d.currency) =
      .ok (some (sec, ds)))
    (hpil : strContains (strLower d.description) "in lieu of" = false)
    (hex : extractPerSharePrice d.description = some p)
    (hmatch : updateFirstWhere (dividendMatches d sec.symbol)
      (mergeDividend d.description p (dividendQuantity d p) (dividendFees d))
      acts = none) :
    processRecord ovr lookup accountId acts (.dividend d) =
      .ok (acts ++ [⟨accountId, d.description, dividendFees d, dividendQuantity d p,
        "dividend", p, canonCurrency d.currency, ds, formatDate d.date,
        sec.symbol⟩]) := by
  simp [processRecord, isIgnoredRecord, IbkrRecord.isin, recordRawCurrency, recCurrencyField,
    recTradeCurrency, hisin, hcur, hres, hpil, hex, hmatch]

/-- A non-PIL dividend-family record that resolves, parses, and finds a
matching activity merges into it and appends nothing. -/
theorem processRecord_dividend_merge (ovr : OverrideState) (lookup : Lookup)
    (accountId : String) (acts updated : List GhostfolioActivity)
    (d : IbkrDividendRecord) (sec : YahooFinanceRecord) (ds : String) (p : ℚ)
    (hisin : d.isin ≠ "") (hcur : d.currency ≠ "")
    (hres : resolveSecurity ovr lookup d.isin (canonCurrency d.currency) =
      .ok (some (sec, ds)))
    (hpil : strContains (strLower d.description) "in lieu of" = false)
    (hex : extractPerSharePrice d.description = some p)
    (hmatch : updateFirstWhere (dividendMatches d sec.symbol)
      (mergeDividend d.description p (dividendQuantity d p) (dividendFees d))
      acts = some updated) :
    processRecord ovr lookup accountId acts (.dividend d) = .ok updated := by
  simp [processRecord, isIgnoredRecord, IbkrRecord.isin, recordRawCurrency, recCurrencyField,
    recTradeCurrency, hisin, hcur, hres, hpil, hex, hmatch]

/-- A payment-in-lieu record (description containing `"in lieu of"`) that
resolves appends a new activity directly — the matcher is bypassed. -/
theorem processRecord_pil (ovr : OverrideState) (lookup : Lookup)
    (accountId : String) (acts : List GhostfolioActivity) (d : IbkrDividendRecord)
    (sec : YahooFinanceRecord) (ds : String)
    (hisin : d.isin ≠ "") (hcur : d.currency ≠ "")
    (hres : resolveSecurity ovr lookup d.isin (canonCurrency d.currency) =
      .ok (some (sec, ds)))
    (hpil : strContains (strLower d.description) "in lieu of" = true) :
    processRecord ovr lookup accountId acts (.dividend d) =
      .ok (acts ++ [⟨accountId, d.description, 0, d.amount, "dividend", 0,
        canonCurrency d.currency, ds, formatDate d.date, sec.symbol⟩]) := by
  simp [processRecord, isIgnoredRecord, IbkrRecord.isin, recordRawCurrency, recCurrencyField,
    recTradeCurrency, hisin, hcur, hres, hpil]

/-- A non-PIL dividend-family record whose description has no `PER SHARE`
price crashes the batch (the `TypeError` of line 178). -/
theorem processRecord_missing_price (ovr : OverrideState) (lookup : Lookup)
    (accountId : String) (acts : List GhostfolioActivity) (d : IbkrDividendRecord)
    (sec : YahooFinanceRecord) (ds : String)
    (hisin : d.isin ≠ "") (hcur : d.currency ≠ "")
    (hres : resolveSecurity ovr lookup d.isin (canonCurrency d.currency) =
      .ok (some (sec, ds)))
    (hpil : strContains (strLower d.description) "in lieu of" = false)
    (hex : extractPerSharePrice d.description = none) :
    processRecord ovr lookup accountId acts (.dividend d) =
      .error "TypeError: Cannot read properties of null (reading 0)" := by
  simp [processRecord, isIgnoredRecord, IbkrRecord.isin, recordRawCurrency, recCurrencyField,
    recTradeCurrency, hisin, hcur, hres, hpil, hex]

/-- A record whose resolution raises aborts the step with that error. -/
theorem processRecord_resolve_error (ovr : OverrideState) (lookup : Lookup)
    (accountId : String) (acts : List GhostfolioActivity) (rec : IbkrRecord)
    (e : String)
    (hisin : rec.isin ≠ "")
    (hres : resolveSecurity ovr lookup rec.isin
      (canonCurrency (recordRawCurrency rec)) = .error e) :
    processRecord ovr lookup accountId acts rec = .error e := by
  simp [processRecord, isIgnoredRecord, hisin, hres]

/-- A record the collaborator cannot resolve (`.ok none`) is skipped:
the activity list is unchanged. -/
theorem processRecord_unresolved (ovr : OverrideState) (lookup : Lookup)
    (accountId : String) (acts : List GhostfolioActivity) (rec : IbkrRecord)
    (hisin : rec.isin ≠ "")
    (hres : resolveSecurity ovr lookup rec.isin
      (canonCurrency (recordRawCurrency rec)) = .ok none) :
    processRecord ovr lookup accountId acts rec = .ok acts := by
  simp [processRecord, isIgnoredRecord, hisin, hres]

/-- A record with an empty `isin` is skipped silently. -/
theorem processRecord_ignored (ovr : OverrideState) (lookup : Lookup)
    (accountId : String) (acts : List GhostfolioActivity) (rec : IbkrRecord)
    (hisin : rec.isin = "") :
    processRecord ovr lookup accountId acts rec = .ok acts := by
  simp [processRecord, isIgnoredRecord, hisin]

/-- Unfolding one loop iteration that succeeds. -/
theorem processRecords_cons_ok (ovr : OverrideState) (lookup : Lookup)
    (accountId : String) (rec : IbkrRecord) (rest : List IbkrRecord)
    (acc acc' : List GhostfolioActivity)
    (h : processRecord ovr lookup accountId acc rec = .ok acc') :
    processRecords ovr lookup accountId (rec :: rest) acc =
      processRecords ovr lookup accountId rest acc' := by
  simp [processRecords, h]

/-- Unfolding one loop iteration that fails: the loop short-circuits. -/
theorem processRecords_cons_error (ovr : OverrideState) (lookup : Lookup)
    (accountId : String) (rec : IbkrRecord) (rest : List IbkrRecord)
    (acc : List GhostfolioActivity) (e : String)
    (h : processRecord ovr lookup accountId acc rec = .error e) :
    processRecords ovr lookup accountId (rec :: rest) acc = .error e := by
  simp [processRecords, h]

/-- Splitting the loop at an intermediate state. -/
theorem processRecords_append (ovr : OverrideState) (lookup : Lookup)
    (accountId : String) (pre post : List IbkrRecord)
    (acc acc' : List GhostfolioActivity)
    (h : processRecords ovr lookup accountId pre acc = .ok acc') :
    processRecords ovr lookup accountId (pre ++ post) acc =
      processRecords ovr lookup accountId post acc' := by
  induction pre generalizing acc with
  | nil =>
    simp only [processRecords] at h
    cases h
    simp
  | cons rec rest ih =>
    simp only [processRecords] at h ⊢
    cases hstep : processRecord ovr lookup accountId acc rec with
    | error e => simp [hstep] at h
    | ok acc₂ =>
      simp only [hstep] at h ⊢
      exact ih acc₂ h

/-! ## Override-table lemmas -/

theorem mapSet_keys_nodup (m : List (String × String)) (k v : String)
    (h : (m.map Prod.fst).Nodup) : ((mapSet m k v).map Prod.fst).Nodup := by
  simp only [mapSet, List.map_cons, List.nodup_cons]
  refine ⟨?_, ((List.filter_sublist m).map Prod.fst).nodup h⟩
  intro hmem
  rcases List.mem_map.mp hmem with ⟨p, hpmem, hpk⟩
  rcases List.mem_filter.mp hpmem with ⟨_, hne⟩
  simp only [decide_eq_true_eq] at hne
  exact hne hpk

theorem loadLine_keys_nodup (st : OverrideState) (line : String)
    (h : (st.isinOverrides.map Prod.fst).Nodup) :
    ((loadOverrideLine st line).isinOverrides.map Prod.fst).Nodup := by
  simp only [loadOverrideLine]
  repeat' split
  all_goals first
    | exact h
    | exact mapSet_keys_nodup _ _ _ h

theorem foldl_loadLine_keys_nodup (lines : List String) (st : OverrideState)
    (h : (st.isinOverrides.map Prod.fst).Nodup) :
    (((lines.foldl loadOverrideLine st).isinOverrides).map Prod.fst).Nodup := by
  induction lines generalizing st with
  | nil => exact h
  | cons l ls ih => exact ih _ (loadLine_keys_nodup _ _ h)

theorem setAdd_mem_mono (s : List String) (i x : String) (h : x ∈ s) :
    x ∈ setAdd s i := by
  unfold setAdd
  split
  · exact h
  · exact List.mem_cons_of_mem _ h

theorem loadLine_manual_mono (st : OverrideState) (line x : String)
    (h : isManualIsin st x = true) :
    isManualIsin (loadOverrideLine st line) x = true := by
  simp only [isManualIsin, decide_eq_true_eq] at h ⊢
  simp only [loadOverrideLine]
  repeat' split
  all_goals first
    | exact h
    | exact setAdd_mem_mono _ _ _ h

theorem foldl_loadLine_manual_mono (lines : List String) (st : OverrideState)
    (x : String) (h : isManualIsin st x = true) :
    isManualIsin (lines.foldl loadOverrideLine st) x = true := by
  induction lines generalizing st with
  | nil => exact h
  | cons l ls ih => exact ih _ (loadLine_manual_mono _ _ _ h)

/-! ## The claims -/

/-- C6: schema detection is a deterministic pure function of the header
line's field count: more than 6 delimiter-separated fields select the
9-column trade layout, 6 or fewer the 6-column dividend layout, and the
selection depends on nothing but the count (no column-name validation). -/
theorem claim6_schema_detection (input : String) :
    (6 < (strSplit ((strSplit input '\n').headD "") ',').length →
      processHeaders input = ["type", "date", "isin", "quantity", "price",
        "totalAmount", "tradeCurrency", "commission", "commissionCurrency"]) ∧
    ((strSplit ((strSplit input '\n').headD "") ',').length ≤ 6 →
      processHeaders input = ["type", "date", "isin", "description", "amount",
        "currency"]) ∧
    (∀ other : String,
      (strSplit ((strSplit input '\n').headD "") ',').length =
        (strSplit ((strSplit other '\n').headD "") ',').length →
      processHeaders input = processHeaders other) := by
  refine ⟨fun h => ?_, fun h => ?_, fun other h => ?_⟩
  · simp only [processHeaders]
    rw [if_pos h]
  · simp only [processHeaders]
    rw [if_neg (by omega)]
  · simp only [processHeaders]
    rw [h]

/-- C6 witness: a 7-field header selects the trade layout, a 6-field header
the dividend layout. -/
theorem claim6_witness :
    processHeaders "a,b,c,d,e,f,g\nrow" = ["type", "date", "isin", "quantity",
      "price", "totalAmount", "tradeCurrency", "commission",
      "commissionCurrency"] ∧
    processHeaders "a,b,c,d,e,f\nrow" = ["type", "date", "isin", "description",
      "amount", "currency"] :=
  ⟨(claim6_schema_detection "a,b,c,d,e,f,g\nrow").1 (by decide),
   (claim6_schema_detection "a,b,c,d,e,f\nrow").2.1 (by decide)⟩

/-- C3: identity resolution follows strict precedence: a Manual identifier
yields the synthetic `GF_<identifier>` security (currency defaulting to
`"USD"`, identifier as display name, `"MANUAL"` data source) and the
external lookup is never called (the outcome is the same for every
collaborator); otherwise a replacement key, when present, is passed to the
collaborator in place of the identifier; otherwise the identifier itself
is passed. -/
theorem claim3_resolution_precedence (ovr : OverrideState)
    (isin currency : String) :
    (isManualIsin ovr isin = true →
      resolveQuery ovr isin currency =
        .manual ⟨"GF_" ++ isin, if currency = "" then "USD" else currency, isin⟩ ∧
      ∀ lookup : Lookup, resolveSecurity ovr lookup isin currency =
        .ok (some (⟨"GF_" ++ isin, if currency = "" then "USD" else currency,
          isin⟩, "MANUAL"))) ∧
    (isManualIsin ovr isin = false →
      (∀ k, getSymbolOverride ovr isin = some k →
        resolveQuery ovr isin currency = .extLookup none (some k) currency ∧
        ∀ lookup : Lookup, resolveSecurity ovr lookup isin currency =
          runResolve lookup (.extLookup none (some k) currency)) ∧
      (getSymbolOverride ovr isin = none →
        resolveQuery ovr isin currency = .extLookup (some isin) none currency ∧
        ∀ lookup : Lookup, resolveSecurity ovr lookup isin currency =
          runResolve lookup (.extLookup (some isin) none currency))) := by
  refine ⟨fun h => ⟨?_, fun lookup => ?_⟩,
    fun h => ⟨fun k hk => ⟨?_, fun lookup => ?_⟩, fun hn => ⟨?_, fun lookup => ?_⟩⟩⟩
  · simp [resolveQuery, h]
  · simp [resolveSecurity, resolveQuery, runResolve, h]
  · simp [resolveQuery, h, hk]
  · simp [resolveSecurity, resolveQuery, h, hk]
  · simp [resolveQuery, h, hn]
  · simp [resolveSecurity, resolveQuery, h, hn]

/-- C3 witness: with the override file `AAA=AAA` and `BBB=SYM` loaded, the
identifier `AAA` resolves manually even under a collaborator that always
raises, `BBB` is looked up as `SYM`, and `CCC` is looked up directly. -/
theorem claim3_witness :
    resolveQuery (loadIsinOverrides "AAA=AAA\nBBB=SYM") "AAA" "EUR" =
      .manual ⟨"GF_AAA", "EUR", "AAA"⟩ ∧
    resolveSecurity (loadIsinOverrides "AAA=AAA\nBBB=SYM") failingLookup
      "AAA" "EUR" = .ok (some (⟨"GF_AAA", "EUR", "AAA"⟩, "MANUAL")) ∧
    resolveQuery (loadIsinOverrides "AAA=AAA\nBBB=SYM") "BBB" "EUR" =
      .extLookup none (some "SYM") "EUR" ∧
    resolveQuery (loadIsinOverrides "AAA=AAA\nBBB=SYM") "CCC" "EUR" =
      .extLookup (some "CCC") none "EUR" := by
  have h1 := (claim3_resolution_precedence (loadIsinOverrides "AAA=AAA\nBBB=SYM")
    "AAA" "EUR").1 (by decide)
  have h2 := ((claim3_resolution_precedence (loadIsinOverrides "AAA=AAA\nBBB=SYM")
    "BBB" "EUR").2 (by decide)).1 "SYM" (by decide)
  have h3 := ((claim3_resolution_precedence (loadIsinOverrides "AAA=AAA\nBBB=SYM")
    "CCC" "EUR").2 (by decide)).2 (by decide)
  exact ⟨by simpa using h1.1, by simpa using h1.2 failingLookup,
    by simpa using h2.1, by simpa using h3.1⟩

/-- C9: an identifier in the Manual set always resolves to the synthetic
Manual security — even when a replacement-key entry for the same identifier
exists — because the Manual membership test precedes the replacement-key
lookup; the external collaborator is never consulted (the outcome is
independent of the collaborator). -/
theorem claim9_manual_precedes_override (ovr : OverrideState)
    (isin currency k : String)
    (hman : isManualIsin ovr isin = true)
    (_hover : getSymbolOverride ovr isin = some k) :
    resolveQuery ovr isin currency =
      .manual ⟨"GF_" ++ isin, if currency = "" then "USD" else currency, isin⟩ ∧
    ∀ lookup : Lookup, resolveSecurity ovr lookup isin currency =
      .ok (some (⟨"GF_" ++ isin, if currency = "" then "USD" else currency,
        isin⟩, "MANUAL")) := by
  refine ⟨by simp [resolveQuery, hman], fun lookup => ?_⟩
  simp [resolveSecurity, resolveQuery, runResolve, hman]

/-- C9 witness: after loading `X=X` then `X=Y`, the identifier `X` is in the
Manual set *and* has the replacement key `Y`; it still resolves manually,
even under a collaborator that always raises. -/
theorem claim9_witness :
    resolveQuery (loadIsinOverrides "X=X\nX=Y") "X" "USD" =
      .manual ⟨"GF_X", "USD", "X"⟩ ∧
    resolveSecurity (loadIsinOverrides "X=X\nX=Y") failingLookup "X" "USD" =
      .ok (some (⟨"GF_X", "USD", "X"⟩, "MANUAL")) := by
  have h := claim9_manual_precedes_override (loadIsinOverrides "X=X\nX=Y")
    "X" "USD" "Y" (by decide) (by decide)
  exact ⟨by simpa using h.1, by simpa using h.2 failingLookup⟩

/-- C2 counterexample: after the override lines `X=X` (Manual) and then
`X=Y` (replacement), the identifier `X` sits in *both* tables — the Manual
marking is never removed — and resolution still fabricates the Manual
security instead of using the replacement key `Y` for the external lookup,
contradicting "subsequent identity resolution behaves according to the later
line only". -/
theorem claim2_counterexample :
    getSymbolOverride (loadIsinOverrides "X=X\nX=Y") "X" = some "Y" ∧
    isManualIsin (loadIsinOverrides "X=X\nX=Y") "X" = true ∧
    resolveQuery (loadIsinOverrides "X=X\nX=Y") "X" "USD" =
      .manual ⟨"GF_X", "USD", "X"⟩ ∧
    resolveQuery (loadIsinOverrides "X=X\nX=Y") "X" "USD" ≠
      .extLookup none (some "Y") "USD" := by
  decide

/-- C2 (amended): a later valid override line overwrites the *replacement
map* entry of an earlier one (last write wins in the map), and a later
`x=x` line marks `x` Manual; the replacement map never holds two entries
for one identifier.  But Manual markings persist: once an identifier is in
the Manual set, it stays there under any later lines, and resolution keeps
fabricating the Manual security — a Manual-then-replacement identifier is
*not* resolved via the external lookup. -/
theorem claim2_amended (st : OverrideState) (line x v : String)
    (later : List String)
    (htrim : strTrim line = line) (hhash : strStartsWith line "#" = false)
    (hsplit : strSplit line '=' = [x, v])
    (hx : strTrim x = x) (hv : strTrim v = v) (hxe : x ≠ "") (hve : v ≠ "") :
    (x ≠ v → getSymbolOverride (loadOverrideLine st line) x = some v) ∧
    (x = v → isManualIsin (loadOverrideLine st line) x = true) ∧
    (isManualIsin st x = true →
      isManualIsin (later.foldl loadOverrideLine st) x = true ∧
      ∀ currency, resolveQuery (later.foldl loadOverrideLine st) x currency =
        .manual ⟨"GF_" ++ x, if currency = "" then "USD" else currency, x⟩) ∧
    (∀ content : String,
      ((loadIsinOverrides content).isinOverrides.map Prod.fst).Nodup) := by
  have hlne : line ≠ "" := by
    intro h0
    rw [h0] at hsplit
    rw [show strSplit "" '=' = [""] from rfl] at hsplit
    simp at hsplit
  have hstep : loadOverrideLine st line =
      (if x = v then { st with manualIsins := setAdd st.manualIsins x }
       else { st with isinOverrides := mapSet st.isinOverrides x v }) := by
    simp only [loadOverrideLine, htrim, hsplit]
    rw [if_neg hlne, if_neg (by simp [hhash])]
    simp [hx, hv, hxe, hve]
  refine ⟨fun hxv => ?_, fun hxv => ?_, fun hman => ⟨?_, fun currency => ?_⟩,
    fun content => ?_⟩
  · rw [hstep, if_neg hxv]
    simp [getSymbolOverride, mapGet, mapSet]
  · rw [hstep, if_pos hxv]
    simp only [isManualIsin, setAdd, decide_eq_true_eq]
    split
    · assumption
    · exact List.mem_cons_self _ _
  · exact foldl_loadLine_manual_mono later st x hman
  · simp [resolveQuery, foldl_loadLine_manual_mono later st x hman]
  · exact foldl_loadLine_keys_nodup _ _ (by simp [loadIsinOverrides, emptyOverrides])

/-- C2 witness: the amended behavior at concrete inputs — `P=Q` then `P=R`
leaves `P ↦ R`; `P=P` marks `P` Manual; a Manual `P` stays Manual across the
later lines `P=R` and `Z=W` and still resolves manually. -/
theorem claim2_witness :
    getSymbolOverride (loadOverrideLine (loadIsinOverrides "P=Q") "P=R") "P" =
      some "R" ∧
    isManualIsin (loadOverrideLine (loadIsinOverrides "P=Q") "P=P") "P" = true ∧
    (isManualIsin (loadIsinOverrides "P=P") "P" = true ∧
      isManualIsin (["P=R", "Z=W"].foldl loadOverrideLine
        (loadIsinOverrides "P=P")) "P" = true ∧
      resolveQuery (["P=R", "Z=W"].foldl loadOverrideLine
        (loadIsinOverrides "P=P")) "P" "USD" = .manual ⟨"GF_P", "USD", "P"⟩) := by
  have h1 := claim2_amended (loadIsinOverrides "P=Q") "P=R" "P" "R" []
    (by decide) (by decide) (by decide) (by decide) (by decide)
    (by decide) (by decide)
  have h2 := claim2_amended (loadIsinOverrides "P=P") "P=P" "P" "P" ["P=R", "Z=W"]
    (by decide) (by decide) (by decide) (by decide) (by decide)
    (by decide) (by decide)
  have h3 := h2.2.2.1 (by decide)
  exact ⟨h1.1 (by decide), h2.2.1 rfl, by decide, h3.1, by simpa using h3.2 "USD"⟩

/-- C4: every fatal condition — CSV parse error, zero parsed rows, or the
external collaborator raising — yields exactly one error through the error
callback: the overall result is that single `.error`, it is independent of
any records after the fatal one (processing stops immediately), and no
export artifact is ever delivered through the success callback on such a
path. -/
theorem claim4_fatal_single_error (ovr : OverrideState) (lookup : Lookup)
    (accountId msg e : String) (pre : List IbkrRecord) (rec : IbkrRecord)
    (acc : List GhostfolioActivity)
    (hpre : processRecords ovr lookup accountId pre [] = .ok acc)
    (hstep : processRecord ovr lookup accountId acc rec = .error e) :
    processFileContents ovr lookup accountId (.error msg) =
      .error ("An error occurred while parsing! Details: " ++ msg) ∧
    processFileContents ovr lookup accountId (.ok []) =
      .error "An error occurred while parsing!" ∧
    (∀ post : List IbkrRecord,
      processFileContents ovr lookup accountId (.ok (pre ++ rec :: post)) =
        .error e) ∧
    (∀ post : List IbkrRecord, ∀ g : GhostfolioExport,
      processFileContents ovr lookup accountId (.ok (pre ++ rec :: post)) ≠
        .ok g) := by
  have hmain : ∀ post, processRecords ovr lookup accountId
      (pre ++ rec :: post) [] = .error e := fun post => by
    rw [processRecords_append ovr lookup accountId pre (rec :: post) [] acc hpre]
    exact processRecords_cons_error _ _ _ _ _ _ _ hstep
  have hfc : ∀ post, processFileContents ovr lookup accountId
      (.ok (pre ++ rec :: post)) = .error e := fun post => by
    simp only [processFileContents]
    rw [if_neg (by simp), hmain post]
  exact ⟨rfl, rfl, hfc, fun post g => by rw [hfc post]; simp⟩

/-- C4 witness: a parse error, an empty record list, and a collaborator that
raises each produce exactly the one corresponding error. -/
theorem claim4_witness :
    processFileContents emptyOverrides failingLookup "ACC" (.error "bad row") =
      .error "An error occurred while parsing! Details: bad row" ∧
    processFileContents emptyOverrides failingLookup "ACC" (.ok []) =
      .error "An error occurred while parsing!" ∧
    processFileContents emptyOverrides failingLookup "ACC"
      (.ok [.trade ⟨"buy", "20230105", "US1", 10, 150, 1500, "USD", 1, "USD"⟩,
        .trade ⟨"sell", "20230106", "US1", 5, 160, 800, "USD", 1, "USD"⟩]) =
      .error "getSecurity failed" := by
  have h := claim4_fatal_single_error emptyOverrides failingLookup "ACC"
    "bad row" "getSecurity failed" []
    (.trade ⟨"buy", "20230105", "US1", 10, 150, 1500, "USD", 1, "USD"⟩) []
    rfl rfl
  exact ⟨h.1, h.2.1,
    h.2.2.1 [.trade ⟨"sell", "20230106", "US1", 5, 160, 800, "USD", 1, "USD"⟩]⟩

/-- C5: a non-PIL dividend-family row whose description contains no decimal
number immediately followed by `" PER SHARE"` crashes the batch: the run
ends in the (single) `TypeError` reported through the error callback, and no
activity list is delivered for that row or any later row. -/
theorem claim5_missing_per_share_aborts (ovr : OverrideState) (lookup : Lookup)
    (accountId : String) (pre post : List IbkrRecord) (d : IbkrDividendRecord)
    (sec : YahooFinanceRecord) (ds : String) (acc : List GhostfolioActivity)
    (hpre : processRecords ovr lookup accountId pre [] = .ok acc)
    (hisin : d.isin ≠ "") (hcur : d.currency ≠ "")
    (hres : resolveSecurity ovr lookup d.isin (canonCurrency d.currency) =
      .ok (some (sec, ds)))
    (hpil : strContains (strLower d.description) "in lieu of" = false)
    (hex : extractPerSharePrice d.description = none) :
    processFileContents ovr lookup accountId (.ok (pre ++ .dividend d :: post)) =
      .error "TypeError: Cannot read properties of null (reading 0)" ∧
    ∀ g : GhostfolioExport,
      processFileContents ovr lookup accountId (.ok (pre ++ .dividend d :: post)) ≠
        .ok g := by
  have hstep := processRecord_missing_price ovr lookup accountId acc d sec ds
    hisin hcur hres hpil hex
  have hfc : processFileContents ovr lookup accountId
      (.ok (pre ++ .dividend d :: post)) =
      .error "TypeError: Cannot read properties of null (reading 0)" := by
    simp only [processFileContents]
    rw [if_neg (by simp),
      processRecords_append ovr lookup accountId pre (.dividend d :: post) [] acc hpre,
      processRecords_cons_error _ _ _ _ _ _ _ hstep]
  exact ⟨hfc, fun g => by rw [hfc]; simp⟩

/-- C5 witness: a dividend row whose description `"CASH DIVIDEND USD"` has
no `PER SHARE` price aborts the whole batch, including a later well-formed
trade row. -/
theorem claim5_witness :
    processFileContents emptyOverrides appleLookup "ACC"
      (.ok [.dividend ⟨"dividend", "20230105", "US2", "CASH DIVIDEND USD", 2.4, "USD"⟩,
        .trade ⟨"buy", "20230106", "US1", 10, 150, 1500, "USD", 1, "USD"⟩]) =
      .error "TypeError: Cannot read properties of null (reading 0)" := by
  have h := claim5_missing_per_share_aborts emptyOverrides appleLookup "ACC"
    [] [.trade ⟨"buy", "20230106", "US1", 10, 150, 1500, "USD", 1, "USD"⟩]
    ⟨"dividend", "20230105", "US2", "CASH DIVIDEND USD", 2.4, "USD"⟩
    ⟨"AAPL", "USD", "Apple"⟩ "YAHOO" []
    rfl (by decide) (by decide) rfl (by decide) rfl
  exact h.1

/-- C7: a dividend-family row whose description contains `"in lieu of"`
(case-insensitively) yields a payment-in-lieu activity — quantity the cash
amount, unit price 0, fee 0, comment the description — and the dividend/tax
matcher is bypassed: whatever activities already exist, they are left
untouched and a fresh activity is appended (never merged). -/
theorem claim7_payment_in_lieu (ovr : OverrideState) (lookup : Lookup)
    (accountId : String) (acts : List GhostfolioActivity) (d : IbkrDividendRecord)
    (sec : YahooFinanceRecord) (ds : String)
    (hisin : d.isin ≠ "") (hcur : d.currency ≠ "")
    (hres : resolveSecurity ovr lookup d.isin (canonCurrency d.currency) =
      .ok (some (sec, ds)))
    (hpil : strContains (strLower d.description) "in lieu of" = true) :
    processRecord ovr lookup accountId acts (.dividend d) =
      .ok (acts ++ [⟨accountId, d.description, 0, d.amount, "dividend", 0,
        canonCurrency d.currency, ds, formatDate d.date, sec.symbol⟩]) :=
  processRecord_pil ovr lookup accountId acts d sec ds hisin hcur hres hpil

/-- C7 witness: a PIL row appends its own activity even when the list
already holds an activity that would satisfy the dividend/tax match
predicate exactly (same symbol, currency, date, 20-character prefix). -/
theorem claim7_witness :
    processRecord emptyOverrides appleLookup "ACC"
      [⟨"ACC", "PAYMENT IN LIEU OF DIVIDEND X", 1, 2, "dividend", 3, "USD",
        "YAHOO", formatDate "20230105", "AAPL"⟩]
      (.dividend ⟨"dividend", "20230105", "US3",
        "PAYMENT IN LIEU OF DIVIDEND X", 5, "USD"⟩) =
      .ok [⟨"ACC", "PAYMENT IN LIEU OF DIVIDEND X", 1, 2, "dividend", 3, "USD",
        "YAHOO", formatDate "20230105", "AAPL"⟩,
        ⟨"ACC", "PAYMENT IN LIEU OF DIVIDEND X", 0, 5, "dividend", 0, "USD",
        "YAHOO", formatDate "20230105", "AAPL"⟩] := by
  have h := claim7_payment_in_lieu emptyOverrides appleLookup "ACC"
    [⟨"ACC", "PAYMENT IN LIEU OF DIVIDEND X", 1, 2, "dividend", 3, "USD",
      "YAHOO", formatDate "20230105", "AAPL"⟩]
    ⟨"dividend", "20230105", "US3", "PAYMENT IN LIEU OF DIVIDEND X", 5, "USD"⟩
    ⟨"AAPL", "USD", "Apple"⟩ "YAHOO" (by decide) (by decide) rfl (by decide)
  simpa using h

/-- C10: a DividendTax row finding no existing match emits a new activity of
order type `"dividend"` (there is no separate tax type), quantity 0, unit
price the extracted per-share price, fee the absolute amount, comment the
description. -/
theorem claim10_lone_tax_row (ovr : OverrideState) (lookup : Lookup)
    (accountId : String) (acts : List GhostfolioActivity) (d : IbkrDividendRecord)
    (sec : YahooFinanceRecord) (ds : String) (p : ℚ)
    (hisin : d.isin ≠ "") (hcur : d.currency ≠ "")
    (htype : d.type = "dividendTax")
    (hres : resolveSecurity ovr lookup d.isin (canonCurrency d.currency) =
      .ok (some (sec, ds)))
    (hpil : strContains (strLower d.description) "in lieu of" = false)
    (hex : extractPerSharePrice d.description = some p)
    (hnone : findExactDividendMatch d sec.symbol acts = none) :
    processRecord ovr lookup accountId acts (.dividend d) =
      .ok (acts ++ [⟨accountId, d.description, |d.amount|, 0, "dividend", p,
        canonCurrency d.currency, ds, formatDate d.date, sec.symbol⟩]) := by
  have hup := updateFirstWhere_of_find?_eq_none (dividendMatches d sec.symbol)
    (mergeDividend d.description p (dividendQuantity d p) (dividendFees d))
    acts hnone
  rw [processRecord_dividend_append ovr lookup accountId acts d sec ds p
    hisin hcur hres hpil hex hup]
  simp [dividendFees, dividendQuantity, htype]

/-- C10 witness: a lone tax row (`"DIV 2 PER SHARE - US TAX"`, amount 0.4)
emits a `"dividend"`-typed activity with quantity 0, unit price 2, and fee
0.4. -/
theorem claim10_witness :
    processRecord emptyOverrides appleLookup "ACC" []
      (.dividend ⟨"dividendTax", "20230105", "US4", "DIV 2 PER SHARE - US TAX",
        0.4, "USD"⟩) =
      .ok [⟨"ACC", "DIV 2 PER SHARE - US TAX", |(0.4 : ℚ)|, 0, "dividend",
        decimalToRat ['2'] [], "USD", "YAHOO", formatDate "20230105", "AAPL"⟩] := by
  have h := claim10_lone_tax_row emptyOverrides appleLookup "ACC" []
    ⟨"dividendTax", "20230105", "US4", "DIV 2 PER SHARE - US TAX", 0.4, "USD"⟩
    ⟨"AAPL", "USD", "Apple"⟩ "YAHOO" (decimalToRat ['2'] [])
    (by decide) (by decide) rfl rfl (by decide) rfl rfl
  simpa using h

/-- C8: a dividend-family row denominated `"GBX"` emits its activity with
currency `"GBp"` (canonicalized), while the matcher compares an existing
activity's currency against the row's *raw* `"GBX"`; hence two GBX
counterpart rows — even with identical symbol, date and description
prefix — never merge: each emits its own activity. -/
theorem claim8_gbx_never_merges (ovr : OverrideState) (lookup : Lookup)
    (accountId dt isin taxDesc divDesc : String) (taxAmt divAmt : ℚ)
    (sec : YahooFinanceRecord) (ds : String) (pT pD : ℚ)
    (hisin : isin ≠ "")
    (hres : resolveSecurity ovr lookup isin "GBp" = .ok (some (sec, ds)))
    (hTpil : strContains (strLower taxDesc) "in lieu of" = false)
    (hDpil : strContains (strLower divDesc) "in lieu of" = false)
    (hTex : extractPerSharePrice taxDesc = some pT)
    (hDex : extractPerSharePrice divDesc = some pD) :
    processRecords ovr lookup accountId
      [.dividend ⟨"dividendTax", dt, isin, taxDesc, taxAmt, "GBX"⟩,
       .dividend ⟨"dividend", dt, isin, divDesc, divAmt, "GBX"⟩] [] =
      .ok [⟨accountId, taxDesc, |taxAmt|, 0, "dividend", pT, "GBp", ds,
        formatDate dt, sec.symbol⟩,
        ⟨accountId, divDesc, 0, toFixed3 (divAmt / pD), "dividend", pD, "GBp",
        ds, formatDate dt, sec.symbol⟩] := by
  have h1 := processRecord_dividend_append ovr lookup accountId []
    ⟨"dividendTax", dt, isin, taxDesc, taxAmt, "GBX"⟩ sec ds pT
    hisin (show ("GBX" : String) ≠ "" by decide) hres hTpil hTex rfl
  rw [processRecords_cons_ok _ _ _ _ _ _ _ h1]
  simp only [List.nil_append]
  have hm : updateFirstWhere
      (dividendMatches ⟨"dividend", dt, isin, divDesc, divAmt, "GBX"⟩ sec.symbol)
      (mergeDividend divDesc pD
        (dividendQuantity ⟨"dividend", dt, isin, divDesc, divAmt, "GBX"⟩ pD)
        (dividendFees ⟨"dividend", dt, isin, divDesc, divAmt, "GBX"⟩))
      [⟨accountId, taxDesc,
        dividendFees ⟨"dividendTax", dt, isin, taxDesc, taxAmt, "GBX"⟩,
        dividendQuantity ⟨"dividendTax", dt, isin, taxDesc, taxAmt, "GBX"⟩ pT,
        "dividend", pT, canonCurrency "GBX", ds, formatDate dt, sec.symbol⟩] =
      none := by
    simp [updateFirstWhere, dividendMatches, canonCurrency,
      show (("GBp" : String) = "GBX") = False from by decide]
  have h2 := processRecord_dividend_append ovr lookup accountId
    [⟨accountId, taxDesc,
      dividendFees ⟨"dividendTax", dt, isin, taxDesc, taxAmt, "GBX"⟩,
      dividendQuantity ⟨"dividendTax", dt, isin, taxDesc, taxAmt, "GBX"⟩ pT,
      "dividend", pT, canonCurrency "GBX", ds, formatDate dt, sec.symbol⟩]
    ⟨"dividend", dt, isin, divDesc, divAmt, "GBX"⟩ sec ds pD
    hisin (show ("GBX" : String) ≠ "" by decide) hres hDpil hDex hm
  rw [processRecords_cons_ok _ _ _ _ _ _ _ h2]
  simp [processRecords, dividendFees, dividendQuantity, canonCurrency]

/-- C8 witness: two GBX counterpart rows with identical symbol, date, and
description prefix produce two separate activities, both `"GBp"`. -/
theorem claim8_witness :
    processRecords emptyOverrides appleLookup "ACC"
      [.dividend ⟨"dividendTax", "20230105", "GB1", "LGEN DIV 1 PER SHARE TAX",
        0.2, "GBX"⟩,
       .dividend ⟨"dividend", "20230105", "GB1", "LGEN DIV 1 PER SHARE CASH",
        2, "GBX"⟩] [] =
      .ok [⟨"ACC", "LGEN DIV 1 PER SHARE TAX", |(0.2 : ℚ)|, 0, "dividend",
        decimalToRat ['1'] [], "GBp", "YAHOO", formatDate "20230105", "AAPL"⟩,
        ⟨"ACC", "LGEN DIV 1 PER SHARE CASH", 0,
        toFixed3 ((2 : ℚ) / decimalToRat ['1'] []), "dividend",
        decimalToRat ['1'] [], "GBp", "YAHOO", formatDate "20230105",
        "AAPL"⟩] := by
  have h := claim8_gbx_never_merges emptyOverrides appleLookup "ACC"
    "20230105" "GB1" "LGEN DIV 1 PER SHARE TAX" "LGEN DIV 1 PER SHARE CASH"
    0.2 2 ⟨"AAPL", "USD", "Apple"⟩ "YAHOO"
    (decimalToRat ['1'] []) (decimalToRat ['1'] [])
    (by decide) rfl (by decide) (by decide) rfl rfl
  simpa using h

/-- C1 counterexample: a DividendTax row whose description does *not*
contain the substring `"TAX"` (here `"AAPLDIV 0.24 PER SHARE W"`) paired
with a matching ordinary-Dividend row.  Tax-first, the dividend row takes
the merge branch for a non-tax stub and *overwrites the fee with its own 0*:
the single resulting activity has fee 0 and quantity 0 — neither the tax
row's fee (0.36) nor the dividend row's quantity (10).  Dividend-first, the
result is the completed activity instead, so the two orders disagree. -/
theorem claim1_counterexample :
    processRecords emptyOverrides appleLookup "ACC"
      [.dividend ⟨"dividendTax", "20230105", "US1", "AAPLDIV 0.24 PER SHARE W",
        0.36, "USD"⟩,
       .dividend ⟨"dividend", "20230105", "US1", "AAPLDIV 0.24 PER SHARE",
        2.4, "USD"⟩] [] =
      .ok [⟨"ACC", "AAPLDIV 0.24 PER SHARE W", 0, 0, "dividend",
        decimalToRat ['0'] ['2', '4'], "USD", "YAHOO",
        "2023-01-05T00:00:00+00:00", "AAPL"⟩] ∧
    processRecords emptyOverrides appleLookup "ACC"
      [.dividend ⟨"dividend", "20230105", "US1", "AAPLDIV 0.24 PER SHARE",
        2.4, "USD"⟩,
       .dividend ⟨"dividendTax", "20230105", "US1", "AAPLDIV 0.24 PER SHARE W",
        0.36, "USD"⟩] [] =
      .ok [⟨"ACC", "AAPLDIV 0.24 PER SHARE", |(0.36 : ℚ)|,
        toFixed3 ((2.4 : ℚ) / decimalToRat ['0'] ['2', '4']), "dividend",
        decimalToRat ['0'] ['2', '4'], "USD", "YAHOO",
        "2023-01-05T00:00:00+00:00", "AAPL"⟩] ∧
    processRecords emptyOverrides appleLookup "ACC"
      [.dividend ⟨"dividendTax", "20230105", "US1", "AAPLDIV 0.24 PER SHARE W",
        0.36, "USD"⟩,
       .dividend ⟨"dividend", "20230105", "US1", "AAPLDIV 0.24 PER SHARE",
        2.4, "USD"⟩] [] ≠
    processRecords emptyOverrides appleLookup "ACC"
      [.dividend ⟨"dividend", "20230105", "US1", "AAPLDIV 0.24 PER SHARE",
        2.4, "USD"⟩,
       .dividend ⟨"dividendTax", "20230105", "US1", "AAPLDIV 0.24 PER SHARE W",
        0.36, "USD"⟩] [] ∧
    toFixed3 ((2.4 : ℚ) / decimalToRat ['0'] ['2', '4']) = 10 ∧
    |(0.36 : ℚ)| = 0.36 ∧ (0 : ℚ) ≠ 10 ∧ (0 : ℚ) ≠ 0.36 := by
  refine ⟨rfl, rfl, fun h => ?_, ?_, by norm_num, by norm_num, by norm_num⟩
  · have hc := congrArg (fun r => (match r with
      | Except.ok (a :: _) => a.comment
      | _ => "")) h
    exact absurd hc (by decide)
  · have h24 : decimalToRat ['0'] ['2', '4'] = 24 / 100 := by
      simp only [decimalToRat, show digitsToNat ['0'] = 0 from by decide,
        show digitsToNat ['2', '4'] = 24 from by decide]
      norm_num
    rw [h24, show (2.4 : ℚ) / (24 / 100) = 10 from by norm_num]
    simp only [toFixed3]
    rw [show (10 : ℚ) * 1000 + 1 / 2 = 20001 / 2 from by norm_num]
    rw [show ⌊(20001 : ℚ) / 2⌋ = 10000 from by
      rw [Int.floor_eq_iff]
      norm_num]
    norm_num

/-- C1 (amended): the dividend/tax pair merges order-independently into one
activity with the dividend's quantity and unit price, the tax's fee, and the
dividend's description as comment — *provided* the tax row's description
contains the substring `"TAX"` while the dividend row's does not (otherwise
the merge overwrites the wrong half, see the counterexample) and the shared
currency is not `"GBX"` (whose canonicalization defeats matching, see C8). -/
theorem claim1_amended (ovr : OverrideState) (lookup : Lookup)
    (accountId dt isin cur taxDesc divDesc : String) (taxAmt divAmt : ℚ)
    (sec : YahooFinanceRecord) (ds : String) (pT pD : ℚ)
    (hisin : isin ≠ "") (hcur : cur ≠ "") (hgbx : cur ≠ "GBX")
    (hres : resolveSecurity ovr lookup isin cur = .ok (some (sec, ds)))
    (hTpil : strContains (strLower taxDesc) "in lieu of" = false)
    (hDpil : strContains (strLower divDesc) "in lieu of" = false)
    (hTex : extractPerSharePrice taxDesc = some pT)
    (hDex : extractPerSharePrice divDesc = some pD)
    (hpre20 : strTake taxDesc 20 = strTake divDesc 20)
    (hTtax : strContains taxDesc "TAX" = true)
    (hDtax : strContains divDesc "TAX" = false) :
    processRecords ovr lookup accountId
      [.dividend ⟨"dividendTax", dt, isin, taxDesc, taxAmt, cur⟩,
       .dividend ⟨"dividend", dt, isin, divDesc, divAmt, cur⟩] [] =
      .ok [⟨accountId, divDesc, |taxAmt|, toFixed3 (divAmt / pD), "dividend",
        pD, cur, ds, formatDate dt, sec.symbol⟩] ∧
    processRecords ovr lookup accountId
      [.dividend ⟨"dividend", dt, isin, divDesc, divAmt, cur⟩,
       .dividend ⟨"dividendTax", dt, isin, taxDesc, taxAmt, cur⟩] [] =
      .ok [⟨accountId, divDesc, |taxAmt|, toFixed3 (divAmt / pD), "dividend",
        pD, cur, ds, formatDate dt, sec.symbol⟩] := by
  have hcanon : canonCurrency cur = cur := by simp [canonCurrency, hgbx]
  have hres' : resolveSecurity ovr lookup isin (canonCurrency cur) =
      .ok (some (sec, ds)) := by rwa [hcanon]
  constructor
  · -- tax row first, dividend row completes the stub
    have h1 := processRecord_dividend_append ovr lookup accountId []
      ⟨"dividendTax", dt, isin, taxDesc, taxAmt, cur⟩ sec ds pT
      hisin hcur hres' hTpil hTex rfl
    rw [processRecords_cons_ok _ _ _ _ _ _ _ h1]
    simp only [List.nil_append]
    have hm : updateFirstWhere
        (dividendMatches ⟨"dividend", dt, isin, divDesc, divAmt, cur⟩ sec.symbol)
        (mergeDividend divDesc pD
          (dividendQuantity ⟨"dividend", dt, isin, divDesc, divAmt, cur⟩ pD)
          (dividendFees ⟨"dividend", dt, isin, divDesc, divAmt, cur⟩))
        [⟨accountId, taxDesc,
          dividendFees ⟨"dividendTax", dt, isin, taxDesc, taxAmt, cur⟩,
          dividendQuantity ⟨"dividendTax", dt, isin, taxDesc, taxAmt, cur⟩ pT,
          "dividend", pT, canonCurrency cur, ds, formatDate dt, sec.symbol⟩] =
        some [⟨accountId, divDesc,
          dividendFees ⟨"dividendTax", dt, isin, taxDesc, taxAmt, cur⟩,
          dividendQuantity ⟨"dividend", dt, isin, divDesc, divAmt, cur⟩ pD,
          "dividend", pD, canonCurrency cur, ds, formatDate dt, sec.symbol⟩] := by
      simp [updateFirstWhere, dividendMatches, mergeDividend, hpre20, hTtax,
        hcanon]
    have h2 := processRecord_dividend_merge ovr lookup accountId _ _
      ⟨"dividend", dt, isin, divDesc, divAmt, cur⟩ sec ds pD
      hisin hcur hres' hDpil hDex hm
    rw [processRecords_cons_ok _ _ _ _ _ _ _ h2]
    simp [processRecords, dividendFees, dividendQuantity, hcanon]
  · -- dividend row first, tax row adds its fee
    have h1 := processRecord_dividend_append ovr lookup accountId []
      ⟨"dividend", dt, isin, divDesc, divAmt, cur⟩ sec ds pD
      hisin hcur hres' hDpil hDex rfl
    rw [processRecords_cons_ok _ _ _ _ _ _ _ h1]
    simp only [List.nil_append]
    have hm : updateFirstWhere
        (dividendMatches ⟨"dividendTax", dt, isin, taxDesc, taxAmt, cur⟩ sec.symbol)
        (mergeDividend taxDesc pT
          (dividendQuantity ⟨"dividendTax", dt, isin, taxDesc, taxAmt, cur⟩ pT)
          (dividendFees ⟨"dividendTax", dt, isin, taxDesc, taxAmt, cur⟩))
        [⟨accountId, divDesc,
          dividendFees ⟨"dividend", dt, isin, divDesc, divAmt, cur⟩,
          dividendQuantity ⟨"dividend", dt, isin, divDesc, divAmt, cur⟩ pD,
          "dividend", pD, canonCurrency cur, ds, formatDate dt, sec.symbol⟩] =
        some [⟨accountId, divDesc,
          dividendFees ⟨"dividendTax", dt, isin, taxDesc, taxAmt, cur⟩,
          dividendQuantity ⟨"dividend", dt, isin, divDesc, divAmt, cur⟩ pD,
          "dividend", pD, canonCurrency cur, ds, formatDate dt, sec.symbol⟩] := by
      simp [updateFirstWhere, dividendMatches, mergeDividend, hpre20.symm,
        hDtax, hcanon]
    have h2 := processRecord_dividend_merge ovr lookup accountId _ _
      ⟨"dividendTax", dt, isin, taxDesc, taxAmt, cur⟩ sec ds pT
      hisin hcur hres' hTpil hTex hm
    rw [processRecords_cons_ok _ _ _ _ _ _ _ h2]
    simp [processRecords, dividendFees, dividendQuantity, hcanon]

/-- C1 witness for the amended theorem: a concrete tax/dividend pair
(`"IBM DIV 1 PER SHARE - TAX"` / `"IBM DIV 1 PER SHARE CASH"`) merges into
the same single completed activity in both orders. -/
theorem claim1_witness :
    processRecords emptyOverrides appleLookup "ACC"
      [.dividend ⟨"dividendTax", "20230105", "US5", "IBM DIV 1 PER SHARE - TAX",
        0.36, "USD"⟩,
       .dividend ⟨"dividend", "20230105", "US5", "IBM DIV 1 PER SHARE CASH",
        2.4, "USD"⟩] [] =
      .ok [⟨"ACC", "IBM DIV 1 PER SHARE CASH", |(0.36 : ℚ)|,
        toFixed3 ((2.4 : ℚ) / decimalToRat ['1'] []), "dividend",
        decimalToRat ['1'] [], "USD", "YAHOO", formatDate "20230105",
        "AAPL"⟩] ∧
    processRecords emptyOverrides appleLookup "ACC"
      [.dividend ⟨"dividend", "20230105", "US5", "IBM DIV 1 PER SHARE CASH",
        2.4, "USD"⟩,
       .dividend ⟨"dividendTax", "20230105", "US5", "IBM DIV 1 PER SHARE - TAX",
        0.36, "USD"⟩] [] =
      .ok [⟨"ACC", "IBM DIV 1 PER SHARE CASH", |(0.36 : ℚ)|,
        toFixed3 ((2.4 : ℚ) / decimalToRat ['1'] []), "dividend",
        decimalToRat ['1'] [], "USD", "YAHOO", formatDate "20230105",
        "AAPL"⟩] := by
  have h := claim1_amended emptyOverrides appleLookup "ACC" "20230105" "US5"
    "USD" "IBM DIV 1 PER SHARE - TAX" "IBM DIV 1 PER SHARE CASH" 0.36 2.4
    ⟨"AAPL", "USD", "Apple"⟩ "YAHOO" (decimalToRat ['1'] []) (decimalToRat ['1'] [])
    (by decide) (by decide) (by decide) rfl (by decide) (by decide) rfl rfl
    (by decide) (by decide) (by decide)
  exact h

end Ibkr

